import Mathlib

/-!
Shallow embedding of the duel-masters match core.

The authority is the TypeScript file src/server/src/game/match.ts
(match lifecycle, turn-phase engine) and the Go card file
src/game/cards/dm01/living_dead.go (card templates).  Helper modules
that match.ts imports (phase.ts, player.ts, the effects module, the
card repository, the network layer) are not part of the source tree
given here; wherever a definition embeds one of those, its doc comment
starts with the words Modelled from the spec and names the missing
file.  Everything else is translated directly from match.ts.

Side effects are made explicit: network sends and effect executions
become trace events (Ev), the id generator becomes a natural-number
supply, and the coin flip of tryStartMatch becomes a boolean argument.
-/

namespace DuelMasters

/-- Modelled from the spec: the phase enumeration of phase.ts (not under
src).  match.ts uses IDLE, CHOOSE_DECK, BEGIN_TURN_STEP, UNTAP_STEP,
START_TURN_STEP, DRAW_STEP, CHARGE_STEP and MAIN_STEP; the spec says the
enumeration has nine values, the ninth being the attack step. -/
inductive Phase
  | IDLE
  | CHOOSE_DECK
  | BEGIN_TURN_STEP
  | UNTAP_STEP
  | START_TURN_STEP
  | DRAW_STEP
  | CHARGE_STEP
  | MAIN_STEP
  | ATTACK_STEP
  deriving DecidableEq, Repr

/-- The zone identifiers of cards/types.ts (Container).  match.ts uses
Container.HAND; the remaining zones come from the spec glossary. -/
inductive Container
  | HAND
  | SHIELDZONE
  | MANAZONE
  | GRAVEYARD
  | BATTLEZONE
  | HIDDENZONE
  | DECK
  deriving DecidableEq, Repr

/-- A card instance (ICard of cards/types.ts, fields as used by match.ts:
the template id, the tapped flag and the shortid assigned in
playerChooseDeck, plus the summoning-sickness flag the spec gives every
CardInstance).  The owning-player back reference of the TypeScript
object is represented by which zone list of which player holds the
card. -/
structure Card where
  cardId : String := ""
  name : String := ""
  tapped : Bool := false
  summoningSickness : Bool := false
  virtualId : Nat := 0
  deriving DecidableEq, Repr

/-- One deck record returned by the persistence collaborator
(Deck.find in addPlayer): its uid and its list of card ids. -/
structure DeckRecord where
  uid : String := ""
  cards : List String := []
  deriving DecidableEq, Repr

/-- IPlayer of player.ts as constructed in addPlayer: the user, the
client socket (a number here), the available deck records, the chosen
deck (absent until playerChooseDeck succeeds) and the six zone lists. -/
structure Player where
  uid : String := ""
  client : Nat := 0
  decks : List DeckRecord := []
  deck : Option (List Card) := none
  hand : List Card := []
  shieldzone : List Card := []
  manazone : List Card := []
  graveyard : List Card := []
  battlezone : List Card := []
  hiddenzone : List Card := []
  deriving DecidableEq, Repr

/-- Which of the two player slots of a match; the playerTurn reference
of IMatch is embedded as this tag. -/
inductive Pid
  | p1
  | p2
  deriving DecidableEq, Repr

/-- IMatch of match.ts.  The shortid strings are embedded as naturals
drawn from a fresh-id counter, standing in for shortid generating
distinct ids. -/
structure IMatch where
  id : Nat := 0
  inviteId : Nat := 0
  name : String := ""
  description : String := ""
  phase : Phase := Phase.IDLE
  player1 : Option Player := none
  player2 : Option Player := none
  playerTurn : Option Pid := none
  deriving DecidableEq, Repr

/-- Observable events of one call into the core: phase changes written
by setPhaseFx, messages handed to the transport collaborator, and the
per-card effect executions of the turn engine. -/
inductive Ev
  | setPhase (p : Phase)
  | sendError (client : Nat) (text : String)
  | sendWarning (client : Nat) (text : String)
  | sendChooseDeck (client : Nat)
  | stateUpdate
  | sicknessFx (virtualId : Nat)
  | untapFx (virtualId : Nat)
  | drawFx (virtualId : Nat)
  | moveFx (virtualId : Nat) (dest : Container)
  | onStartOfTurnFx (virtualId : Nat)
  deriving DecidableEq, Repr

/-- Read the player slot a Pid names. -/
def getPlayer (m : IMatch) : Pid → Option Player
  | Pid.p1 => m.player1
  | Pid.p2 => m.player2

/-- Write the player slot a Pid names (the TypeScript code mutates the
player object in place through the playerTurn / player1 / player2
references). -/
def setPlayer (m : IMatch) (who : Pid) (p : Player) : IMatch :=
  match who with
  | Pid.p1 => { m with player1 := some p }
  | Pid.p2 => { m with player2 := some p }

/-- The active player, match.playerTurn. -/
def activePlayer (m : IMatch) : Option Player :=
  match m.playerTurn with
  | none => none
  | some who => getPlayer m who

/-- Modelled from the spec: setPhaseFx of the effects module (not under
src) — record the new phase on the match and in the trace. -/
def setPhaseFx (m : IMatch) (p : Phase) : IMatch × List Ev :=
  ({ m with phase := p }, [Ev.setPhase p])

/-- Modelled from the spec: resolveSummoningSicknessFx of the effects
module (not under src) — resolving clears the summoning-sickness flag
of the creature. -/
def resolveSummoningSicknessFx (c : Card) : Card :=
  { c with summoningSickness := false }

/-- Modelled from the spec: untapFx of the effects module (not under
src) — untap the card. -/
def untapFx (c : Card) : Card :=
  { c with tapped := false }

/-- Modelled from the spec: drawCardsFx of the effects module (not under
src) — remove the top n cards of the player's deck and return them. -/
def drawCardsFx (p : Player) (n : Nat) : Player × List Card :=
  ({ p with deck := p.deck.map (fun d => d.drop n) },
   (p.deck.getD []).take n)

/-- Modelled from the spec: move_card_to_fx (not under src) — append the
card to the stated container of its owner (only HAND is used by
match.ts) and record the move. -/
def moveCardToFx (m : IMatch) (who : Pid) (c : Card) (dest : Container) :
    IMatch × List Ev :=
  match getPlayer m who with
  | none => (m, [])
  | some p =>
    let p :=
      match dest with
      | Container.HAND => { p with hand := p.hand ++ [c] }
      | Container.SHIELDZONE => { p with shieldzone := p.shieldzone ++ [c] }
      | Container.MANAZONE => { p with manazone := p.manazone ++ [c] }
      | Container.GRAVEYARD => { p with graveyard := p.graveyard ++ [c] }
      | Container.BATTLEZONE => { p with battlezone := p.battlezone ++ [c] }
      | Container.HIDDENZONE => { p with hiddenzone := p.hiddenzone ++ [c] }
      | Container.DECK => { p with deck := some ((p.deck.getD []) ++ [c]) }
    (setPlayer m who p, [Ev.moveFx c.virtualId dest])

/-- Step 5 of match.ts (chargeStep): set the phase to CHARGE_STEP and
stop — the transition to the next step happens only when the player
either charges mana or makes an action from the main step. -/
def chargeStep (m : IMatch) : IMatch × List Ev :=
  setPhaseFx m Phase.CHARGE_STEP

/-- Step 6 of match.ts (mainStep): set the phase to MAIN_STEP and stop —
the transition onwards happens only on a player action. -/
def mainStep (m : IMatch) : IMatch × List Ev :=
  setPhaseFx m Phase.MAIN_STEP

/-- Step 4 of match.ts (drawStep): set DRAW_STEP; when the active
player's deck is empty, return (the player-lost transition is an
unimplemented TODO in the source); otherwise draw one card, move it to
the hand and continue with chargeStep.  The result is none exactly
where the TypeScript would fail on a missing playerTurn, player or
deck reference. -/
def drawStep (m : IMatch) : Option (IMatch × List Ev) :=
  let r0 := setPhaseFx m Phase.DRAW_STEP
  match r0.1.playerTurn with
  | none => none
  | some who =>
    match getPlayer r0.1 who with
    | none => none
    | some p =>
      match p.deck with
      | none => none
      | some d =>
        if d.length < 1 then
          some (r0.1, r0.2)
        else
          let dr := drawCardsFx p 1
          let m1 := setPlayer r0.1 who dr.1
          match dr.2 with
          | [] => none
          | c :: _ =>
            let r1 := moveCardToFx m1 who c Container.HAND
            let r2 := chargeStep r1.1
            some (r2.1, r0.2 ++ [Ev.drawFx c.virtualId] ++ r1.2 ++ r2.2)

/-- Step 3 of match.ts (startTurnStep): set START_TURN_STEP and continue
with drawStep.  The dispatch of the turn-start event is an
unimplemented TODO in the source (match.ts line 208), so no
onStartOfTurnFx event is ever emitted here. -/
def startTurnStep (m : IMatch) : Option (IMatch × List Ev) :=
  let r0 := setPhaseFx m Phase.START_TURN_STEP
  match drawStep r0.1 with
  | none => none
  | some r1 => some (r1.1, r0.2 ++ r1.2)

/-- Step 2 of match.ts (untapStep): set UNTAP_STEP, untap every card in
the active player's battle zone and mana zone (in zone order), send a
state update to both players, then continue with startTurnStep. -/
def untapStep (m : IMatch) : Option (IMatch × List Ev) :=
  let r0 := setPhaseFx m Phase.UNTAP_STEP
  match r0.1.playerTurn with
  | none => none
  | some who =>
    match getPlayer r0.1 who with
    | none => none
    | some p =>
      let tbz := p.battlezone.map (fun c => Ev.untapFx c.virtualId)
      let tmz := p.manazone.map (fun c => Ev.untapFx c.virtualId)
      let p1 := { p with battlezone := p.battlezone.map untapFx,
                         manazone := p.manazone.map untapFx }
      let m1 := setPlayer r0.1 who p1
      match startTurnStep m1 with
      | none => none
      | some r1 => some (r1.1, r0.2 ++ tbz ++ tmz ++ [Ev.stateUpdate] ++ r1.2)

/-- Step 1 of match.ts (beginTurn): set BEGIN_TURN_STEP, resolve
summoning sickness for every creature in the active player's battle
zone (in zone order), then continue with untapStep. -/
def beginTurn (m : IMatch) : Option (IMatch × List Ev) :=
  let r0 := setPhaseFx m Phase.BEGIN_TURN_STEP
  match r0.1.playerTurn with
  | none => none
  | some who =>
    match getPlayer r0.1 who with
    | none => none
    | some p =>
      let tsick := p.battlezone.map (fun c => Ev.sicknessFx c.virtualId)
      let p1 := { p with battlezone := p.battlezone.map resolveSummoningSicknessFx }
      let m1 := setPlayer r0.1 who p1
      match untapStep m1 with
      | none => none
      | some r1 => some (r1.1, r0.2 ++ tsick ++ r1.2)

/-- createDeck of match.ts: instantiate one fresh card per card id by
copying the template returned by the card repository (getCard, an
external collaborator passed here as a function). -/
def createDeck (getCard : String → Card) (cardsIds : List String) : List Card :=
  cardsIds.map getCard

/-- The per-card loop of playerChooseDeck (match.ts lines 119 to 124):
assign each card of the new deck a fresh virtualId (shortid embedded as
consecutive naturals from the supply gen) and clear its tapped flag.
The card.setup call registers the template's effect hooks, which the
spec resolves at construction time; it touches no match state here. -/
def instantiateDeck : Nat → List Card → List Card
  | _, [] => []
  | g, c :: rest =>
    { c with virtualId := g, tapped := false } :: instantiateDeck (g + 1) rest

/-- Modelled from the spec: setupPlayer of player.ts (not under src) —
deck setup places the top five cards as shields and the next five as
the starting hand, leaving the rest as the deck. -/
def setupPlayer (p : Player) : Player :=
  let d := p.deck.getD []
  { p with shieldzone := d.take 5,
           hand := (d.drop 5).take 5,
           deck := some (d.drop 10) }

/-- tryStartMatch of match.ts: return false without touching the match
unless both players are present and have chosen a deck; otherwise set
up both players, pick the starting player by a coin flip (Math.random
embedded as the boolean coin, true picking player1), broadcast a state
update and run beginTurn.  The none result of beginTurn cannot occur
from here (both players exist with decks after setup). -/
def tryStartMatch (coin : Bool) (m : IMatch) : IMatch × Bool × List Ev :=
  match m.player1 with
  | none => (m, false, [])
  | some q1 =>
    match q1.deck with
    | none => (m, false, [])
    | some _ =>
      match m.player2 with
      | none => (m, false, [])
      | some q2 =>
        match q2.deck with
        | none => (m, false, [])
        | some _ =>
          let m1 := { m with player1 := some (setupPlayer q1),
                             player2 := some (setupPlayer q2),
                             playerTurn := some (if coin then Pid.p1 else Pid.p2) }
          match beginTurn m1 with
          | none => (m1, true, [Ev.stateUpdate])
          | some r => (r.1, true, Ev.stateUpdate :: r.2)

/-- playerChooseDeck of match.ts: ignore the call when the match is not
in CHOOSE_DECK or the player already has a deck; warn the player when
the deck id is not among their deck records; otherwise instantiate the
deck and attempt to start the match. -/
def playerChooseDeck (getCard : String → Card) (gen : Nat) (coin : Bool)
    (m : IMatch) (who : Pid) (deckId : String) : IMatch × List Ev :=
  if m.phase ≠ Phase.CHOOSE_DECK then (m, [])
  else
    match getPlayer m who with
    | none => (m, [])
    | some player =>
      if player.deck.isSome then (m, [])
      else
        match player.decks.find? (fun x => x.uid = deckId) with
        | none =>
          (m, [Ev.sendWarning player.client "You do not have the rights to use that deck"])
        | some d =>
          let dcards := instantiateDeck gen (createDeck getCard d.cards)
          let m1 := setPlayer m who { player with deck := some dcards }
          let r := tryStartMatch coin m1
          (r.1, r.2.2)

/-- The module-level matches array of match.ts, with the shortid
generator embedded as a fresh-id counter (ids handed out are distinct
naturals). -/
structure ServerState where
  matchList : List IMatch := []
  nextId : Nat := 0
  deriving DecidableEq, Repr

/-- createMatch of match.ts: build a match in phase IDLE with fresh id
and inviteId, push it onto the matches array and return it.  As in the
source, the host argument is not stored on the match. -/
def createMatch (s : ServerState) (host nm desc : String) : ServerState × IMatch :=
  let m : IMatch := { id := s.nextId, inviteId := s.nextId + 1,
                      name := nm, description := desc, phase := Phase.IDLE }
  ({ s with matchList := s.matchList ++ [m], nextId := s.nextId + 2 }, m)

/-- getMatch of match.ts: first match in the array with the given id. -/
def getMatch (s : ServerState) (i : Nat) : Option IMatch :=
  s.matchList.find? (fun x => x.id = i)

/-- In-place mutation of a match found in the matches array: every entry
carrying its id is replaced (entries have distinct ids for every state
built through createMatch). -/
def updateMatch (s : ServerState) (m : IMatch) : ServerState :=
  { s with matchList := s.matchList.map (fun x => if x.id = m.id then m else x) }

/-- addPlayer of match.ts: reject with a targeted error when the match
id is unknown, the match has left IDLE, the invite id differs, or both
slots are taken; otherwise attach the connecting user as player1, or as
player2 — in which case the phase moves to CHOOSE_DECK and both players
are sent their deck choices.  The decks argument stands for the result
of the Deck.find query for this user. -/
def addPlayer (s : ServerState) (client : Nat) (user : String)
    (userDecks : List DeckRecord) (matchId inviteId : Nat) :
    ServerState × List Ev :=
  match getMatch s matchId with
  | none => (s, [Ev.sendError client "Match is no longer available"])
  | some m =>
    if m.phase ≠ Phase.IDLE then
      (s, [Ev.sendError client "Match is currently in progress"])
    else if inviteId ≠ m.inviteId then
      (s, [Ev.sendError client "Invite id does not match"])
    else if m.player1.isSome && m.player2.isSome then
      (s, [Ev.sendError client "Both players have already connected"])
    else
      let player : Player := { uid := user, client := client, decks := userDecks }
      match m.player1 with
      | none => (updateMatch s { m with player1 := some player }, [])
      | some q1 =>
        let m2 := { m with player2 := some player, phase := Phase.CHOOSE_DECK }
        (updateMatch s m2,
         [Ev.sendChooseDeck q1.client, Ev.sendChooseDeck player.client])

/-- The part of addPlayer acting on the looked-up match itself (match.ts
lines 56 to 97): the same guards and slot assignment, stated on one
match so that per-match reachability can be defined. -/
def addPlayerM (client : Nat) (user : String) (userDecks : List DeckRecord)
    (inviteId : Nat) (m : IMatch) : IMatch × List Ev :=
  if m.phase ≠ Phase.IDLE then
    (m, [Ev.sendError client "Match is currently in progress"])
  else if inviteId ≠ m.inviteId then
    (m, [Ev.sendError client "Invite id does not match"])
  else if m.player1.isSome && m.player2.isSome then
    (m, [Ev.sendError client "Both players have already connected"])
  else
    let player : Player := { uid := user, client := client, decks := userDecks }
    match m.player1 with
    | none => ({ m with player1 := some player }, [])
    | some q1 =>
      ({ m with player2 := some player, phase := Phase.CHOOSE_DECK },
       [Ev.sendChooseDeck q1.client, Ev.sendChooseDeck player.client])

/-- The operations a single match is subjected to after creation: a join
attempt, a deck choice, or an explicit start attempt (the three entry
points of match.ts that write match state). -/
inductive MatchAction
  | add (client : Nat) (user : String) (userDecks : List DeckRecord) (inviteId : Nat)
  | choose (getCard : String → Card) (gen : Nat) (coin : Bool) (who : Pid) (deckId : String)
  | tryStart (coin : Bool)

/-- Apply one MatchAction to one match. -/
def applyAction (a : MatchAction) (m : IMatch) : IMatch × List Ev :=
  match a with
  | MatchAction.add client user userDecks inviteId =>
    addPlayerM client user userDecks inviteId m
  | MatchAction.choose getCard gen coin who deckId =>
    playerChooseDeck getCard gen coin m who deckId
  | MatchAction.tryStart coin =>
    let r := tryStartMatch coin m
    (r.1, r.2.2)

/-- The match states reachable from createMatch through the exposed
operations. -/
inductive Reachable : IMatch → Prop
  | created (idv inv : Nat) (nm desc : String) :
      Reachable { id := idv, inviteId := inv, name := nm,
                  description := desc, phase := Phase.IDLE }
  | step (m : IMatch) (a : MatchAction) :
      Reachable m → Reachable (applyAction a m).1

/-- The phases a trace wrote, in order. -/
def phasesOf (t : List Ev) : List Phase :=
  t.filterMap (fun e => match e with | Ev.setPhase p => some p | _ => none)

/-- Whether an event is the firing of an onStartOfTurn hook. -/
def isStartOfTurnHook : Ev → Bool
  | Ev.onStartOfTurnFx _ => true
  | _ => false

/-- The untap effect executions of a trace, in order. -/
def untapEventsOf (t : List Ev) : List Ev :=
  t.filter (fun e => match e with | Ev.untapFx _ => true | _ => false)

/-- The summoning-sickness resolutions of a trace, in order. -/
def sicknessEventsOf (t : List Ev) : List Ev :=
  t.filter (fun e => match e with | Ev.sicknessFx _ => true | _ => false)

/-- A player-visible input to one match: a join attempt or a deck
choice (the calls the network layer forwards into match.ts).  The coin
flip and the id supply are deliberately not part of an input. -/
inductive Inp
  | add (client : Nat) (user : String) (userDecks : List DeckRecord) (inviteId : Nat)
  | choose (who : Pid) (deckId : String)

/-- Apply one input to a match, threading the virtual-id supply (each
deck choice uses a fresh block of ids). -/
def applyInp (getCard : String → Card) (coin : Bool)
    (st : IMatch × Nat) : Inp → IMatch × Nat
  | Inp.add client user userDecks inviteId =>
    ((addPlayerM client user userDecks inviteId st.1).1, st.2)
  | Inp.choose who deckId =>
    ((playerChooseDeck getCard st.2 coin st.1 who deckId).1, st.2 + 100)

/-- Run a whole input sequence against a match from its created state;
the coin argument stands for every Math.random decision of the run. -/
def runMatch (getCard : String → Card) (coin : Bool) (m0 : IMatch)
    (inputs : List Inp) : IMatch :=
  (inputs.foldl (applyInp getCard coin) (m0, 0)).1

/-- A card repository for concrete runs: every id yields a blank
template carrying that id. -/
def blankRepo : String → Card := fun i => { cardId := i }

/-- A freshly created match as createMatch builds it (id 0, invite 1). -/
def sampleMatch0 : IMatch :=
  { id := 0, inviteId := 1, name := "n", description := "d", phase := Phase.IDLE }

/-- One deck record visible to both sample users. -/
def sampleDeckRecord : DeckRecord := { uid := "deck0", cards := ["card0"] }

/-- A full pre-game input sequence: both players join with the right
invite and both choose the same sample deck. -/
def sampleInputs : List Inp :=
  [Inp.add 1 "alice" [sampleDeckRecord] 1,
   Inp.add 2 "bob" [sampleDeckRecord] 1,
   Inp.choose Pid.p1 "deck0",
   Inp.choose Pid.p2 "deck0"]

/-- A tapped test card. -/
def tappedCard : Card := { cardId := "t", tapped := true, virtualId := 7 }

/-- A player with a tapped battle zone and mana zone, a one-card deck
and a one-card hand, for concrete evaluations. -/
def samplePlayer : Player :=
  { uid := "u1", client := 1,
    deck := some [{ cardId := "top", virtualId := 3 }],
    hand := [{ cardId := "h", virtualId := 9 }],
    battlezone := [tappedCard],
    manazone := [{ cardId := "mz", tapped := true, virtualId := 8 }] }

/-- A player whose deck is exhausted. -/
def emptyDeckPlayer : Player := { uid := "u2", client := 2, deck := some [] }

/-- A started match with samplePlayer active. -/
def sampleStarted : IMatch :=
  { id := 0, inviteId := 1, phase := Phase.BEGIN_TURN_STEP,
    player1 := some samplePlayer, player2 := some emptyDeckPlayer,
    playerTurn := some Pid.p1 }

/-- The same match with the exhausted player active: the input on which
the draw step's loss transition would have to fire. -/
def sampleStarted2 : IMatch := { sampleStarted with playerTurn := some Pid.p2 }

/-! ### The Go card templates of src/game/cards/dm01/living_dead.go

The card file is Go source of the same repository; its collaborators
(match.Card, the fx package, the civ and family constants) are not
under src and are modelled from the spec where needed. -/

/-- The darkness civilization constant of the civ package. -/
def civDarkness : String := "darkness"

/-- The LivingDead family constant of the family package. -/
def familyLivingDead : String := "living_dead"

/-- The effect tags the three cards of living_dead.go use. -/
inductive Fx
  | Creature
  | Slayer
  | Suicide
  deriving DecidableEq, Repr

/-- The lifecycle events of the effect framework (spec section 4.2). -/
inductive GoEvent
  | onEnterBattleZone
  | onLeaveBattleZone
  | onStartOfTurn
  | onAfterCombat
  | onBeforeAttack
  deriving DecidableEq, Repr

/-- match.Card of the Go engine, with the fields living_dead.go writes,
the effect tags bound by Use, and the card's current zone. -/
structure GoCard where
  name : String := ""
  power : Nat := 0
  civilization : String := ""
  family : String := ""
  manaCost : Nat := 0
  manaRequirement : List String := []
  effects : List Fx := []
  zone : Container := Container.DECK
  deriving DecidableEq, Repr

/-- Card.Use of the Go engine: bind the listed effect tags to the card,
in declaration order. -/
def goUse (c : GoCard) (fxs : List Fx) : GoCard :=
  { c with effects := c.effects ++ fxs }

/-- BoneAssassin of living_dead.go. -/
def BoneAssassin (c : GoCard) : GoCard :=
  goUse { c with name := "Bone Assassin, the Ripper", power := 2000,
                 civilization := civDarkness, family := familyLivingDead,
                 manaCost := 4, manaRequirement := [civDarkness] }
        [Fx.Creature, Fx.Slayer]

/-- BoneSpider of living_dead.go. -/
def BoneSpider (c : GoCard) : GoCard :=
  goUse { c with name := "Bone Spider", power := 5000,
                 civilization := civDarkness, family := familyLivingDead,
                 manaCost := 3, manaRequirement := [civDarkness] }
        [Fx.Creature, Fx.Suicide]

/-- SkeletonSoldierTheDefiled of living_dead.go. -/
def SkeletonSoldierTheDefiled (c : GoCard) : GoCard :=
  goUse { c with name := "Skeleton Soldier, the Defiled", power := 3000,
                 civilization := civDarkness, family := familyLivingDead,
                 manaCost := 4, manaRequirement := [civDarkness] }
        [Fx.Creature, Fx.Suicide]

/-- Modelled from the spec: the battle-zone entry and exit bindings of
the three tags of living_dead.go — none of them changes any state on
entering or leaving the battle zone (the spec states Suicide's
onEnterBattleZone is a no-op, and binds Creature and Slayer to no zone
hook in this scope). -/
def zoneHookHandler (f : Fx) (e : GoEvent) (c : GoCard) : GoCard := c

/-- Fire the battle-zone entry or exit hooks of every tag bound to the
card, in declaration order. -/
def fireZoneHooks (e : GoEvent) (c : GoCard) : GoCard :=
  c.effects.foldl (fun acc f => zoneHookHandler f e acc) c

/-- Modelled from the spec: the zone-move operation of the Go engine
(spec section 4.3) — change the card's zone; entering or leaving the
battle zone fires the corresponding hooks. -/
def moveGoCard (c : GoCard) (dest : Container) : GoCard :=
  let c1 := if c.zone = Container.BATTLEZONE
            then fireZoneHooks GoEvent.onLeaveBattleZone c else c
  let c2 := { c1 with zone := dest }
  if dest = Container.BATTLEZONE
  then fireZoneHooks GoEvent.onEnterBattleZone c2 else c2

/-- Modelled from the spec: fx.Suicide (not under src) — on the
after-combat event the creature moves itself to the graveyard through
the zone-move operation; every other event is a no-op. -/
def suicideHandler (e : GoEvent) (c : GoCard) : GoCard :=
  match e with
  | GoEvent.onAfterCombat => moveGoCard c Container.GRAVEYARD
  | _ => c

/-- Modelled from the spec: fx.Creature and fx.Slayer bind no
zone-changing behavior to the lifecycle events modelled here. -/
def inertHandler (e : GoEvent) (c : GoCard) : GoCard := c

/-- The dispatch table of the effect framework (spec section 4.2),
restricted to the tags the cards under src use. -/
def handlerFor : Fx → GoEvent → GoCard → GoCard
  | Fx.Suicide => suicideHandler
  | Fx.Creature => inertHandler
  | Fx.Slayer => inertHandler

/-- Fire one lifecycle event for a card: run every handler bound to the
card's tags, in declaration order. -/
def fireEvent (e : GoEvent) (c : GoCard) : GoCard :=
  c.effects.foldl (fun acc f => handlerFor f e acc) c

/-! ### Theorems -/

theorem getPlayer_setPlayer_same (m : IMatch) (who : Pid) (p : Player) :
    getPlayer (setPlayer m who p) who = some p := by
  cases who <;> rfl

/-- Claim C4: after the Untap step completes, no card in the active
player's battle zone and no card in the active player's mana zone is
tapped, for every possible pre-step assignment of tapped flags to those
cards. -/
theorem untapStep_clears_all_taps (m : IMatch) (who : Pid) (p : Player)
    (d : List Card) (hturn : m.playerTurn = some who)
    (hp : getPlayer m who = some p) (hd : p.deck = some d) :
    ∃ m2 t q, untapStep m = some (m2, t) ∧ getPlayer m2 who = some q ∧
      (∀ c ∈ q.battlezone, c.tapped = false) ∧
      (∀ c ∈ q.manazone, c.tapped = false) := by
  cases who <;> simp only [getPlayer] at hp <;> cases d <;>
    simp_all [untapStep, startTurnStep, drawStep, chargeStep, setPhaseFx,
              setPlayer, getPlayer, drawCardsFx, moveCardToFx, untapFx,
              List.mem_map]

/-- Claim C4 witness: the guarantee evaluated on a concrete started
match whose active player has tapped cards in both zones. -/
theorem untapStep_clears_all_taps_witness :
    ∃ m2 t q, untapStep sampleStarted = some (m2, t) ∧
      getPlayer m2 Pid.p1 = some q ∧
      (∀ c ∈ q.battlezone, c.tapped = false) ∧
      (∀ c ∈ q.manazone, c.tapped = false) :=
  untapStep_clears_all_taps sampleStarted Pid.p1 samplePlayer
    [{ cardId := "top", virtualId := 3 }] rfl rfl rfl

theorem filterMap_const_none {α β : Type} (l : List α) :
    l.filterMap (fun _ => (none : Option β)) = [] := by
  induction l <;> simp_all

theorem phasesOf_untap_trace (l : List Card) :
    phasesOf (l.map (fun c => Ev.untapFx c.virtualId)) = [] := by
  induction l with
  | nil => rfl
  | cons c rest ih => simpa [phasesOf] using ih

theorem phasesOf_sickness_trace (l : List Card) :
    phasesOf (l.map (fun c => Ev.sicknessFx c.virtualId)) = [] := by
  induction l with
  | nil => rfl
  | cons c rest ih => simpa [phasesOf] using ih

/-- Claim C2: for every match started successfully (active player set,
present, deck non-empty), the turn engine passes through BeginTurn,
Untap, StartOfTurn and Draw in exactly that order, then parks in the
Charge phase; no phase of the sequence is skipped. -/
theorem beginTurn_phase_sequence (m : IMatch) (who : Pid) (p : Player)
    (c : Card) (rest : List Card) (hturn : m.playerTurn = some who)
    (hp : getPlayer m who = some p) (hd : p.deck = some (c :: rest)) :
    ∃ m2 t, beginTurn m = some (m2, t) ∧
      phasesOf t = [Phase.BEGIN_TURN_STEP, Phase.UNTAP_STEP,
                    Phase.START_TURN_STEP, Phase.DRAW_STEP,
                    Phase.CHARGE_STEP] ∧
      m2.phase = Phase.CHARGE_STEP := by
  cases who <;> simp only [getPlayer] at hp <;>
    (simp_all [beginTurn, untapStep, startTurnStep, drawStep, chargeStep,
               setPhaseFx, setPlayer, getPlayer, drawCardsFx, moveCardToFx,
               untapFx, resolveSummoningSicknessFx];
     refine ⟨_, _, ⟨rfl, rfl⟩, ?_, rfl⟩;
     simp [phasesOf, List.filterMap_append, List.filterMap_cons,
           List.filterMap_map, Function.comp_def, filterMap_const_none])

/-- Claim C2 witness: the phase sequence evaluated on a concrete
started match with a non-empty deck. -/
theorem beginTurn_phase_sequence_witness :
    ∃ m2 t, beginTurn sampleStarted = some (m2, t) ∧
      phasesOf t = [Phase.BEGIN_TURN_STEP, Phase.UNTAP_STEP,
                    Phase.START_TURN_STEP, Phase.DRAW_STEP,
                    Phase.CHARGE_STEP] ∧
      m2.phase = Phase.CHARGE_STEP :=
  beginTurn_phase_sequence sampleStarted Pid.p1 samplePlayer
    { cardId := "top", virtualId := 3 } [] rfl rfl rfl

/-- Claim C1: a successful draw appends exactly the top deck card to
the hand (hand grows by one, deck shrinks by one); with an empty deck,
the code returns with the match parked in DRAW_STEP, mutating neither
hand nor deck — no loss state exists in the phase enumeration and none
is entered (the loss transition is an unimplemented TODO at match.ts
line 221). -/
theorem drawStep_draw_and_empty_deck (m : IMatch) (who : Pid) (p : Player)
    (hturn : m.playerTurn = some who) (hp : getPlayer m who = some p) :
    (∀ c rest, p.deck = some (c :: rest) →
      ∃ m2 t q, drawStep m = some (m2, t) ∧ getPlayer m2 who = some q ∧
        q.hand = p.hand ++ [c] ∧ q.deck = some rest) ∧
    (p.deck = some [] →
      drawStep m = some ({ m with phase := Phase.DRAW_STEP },
                         [Ev.setPhase Phase.DRAW_STEP])) := by
  cases who <;> simp only [getPlayer] at hp <;>
    refine ⟨fun c rest hd => ?_, fun hd => ?_⟩ <;>
      simp_all [drawStep, chargeStep, setPhaseFx, setPlayer, getPlayer,
                drawCardsFx, moveCardToFx]

/-- Claim C1 witness: the empty-deck behavior (no loss transition, no
mutation) and the successful-draw behavior instantiated on the
exhausted player's match. -/
theorem drawStep_draw_and_empty_deck_witness :
    (∀ c rest, emptyDeckPlayer.deck = some (c :: rest) →
      ∃ m2 t q, drawStep sampleStarted2 = some (m2, t) ∧
        getPlayer m2 Pid.p2 = some q ∧
        q.hand = emptyDeckPlayer.hand ++ [c] ∧ q.deck = some rest) ∧
    (emptyDeckPlayer.deck = some [] →
      drawStep sampleStarted2 = some ({ sampleStarted2 with phase := Phase.DRAW_STEP },
                                      [Ev.setPhase Phase.DRAW_STEP])) :=
  drawStep_draw_and_empty_deck sampleStarted2 Pid.p2 emptyDeckPlayer rfl rfl

/-- Claim C5: the StartOfTurn step dispatches no onStartOfTurn hook at
all — the dispatch is an unimplemented TODO at match.ts line 208 — and
advances straight to the Draw step. -/
theorem startTurnStep_fires_no_hooks (m : IMatch) (who : Pid) (p : Player)
    (d : List Card) (hturn : m.playerTurn = some who)
    (hp : getPlayer m who = some p) (hd : p.deck = some d) :
    ∃ m2 t, startTurnStep m = some (m2, t) ∧
      t.filter isStartOfTurnHook = [] ∧
      (phasesOf t).take 2 = [Phase.START_TURN_STEP, Phase.DRAW_STEP] := by
  cases who <;> simp only [getPlayer] at hp <;> cases d <;>
    (simp_all [startTurnStep, drawStep, chargeStep, setPhaseFx, setPlayer,
               getPlayer, drawCardsFx, moveCardToFx];
     refine ⟨_, _, ⟨rfl, rfl⟩, ?_, ?_⟩ <;>
       simp [phasesOf, isStartOfTurnHook, List.filterMap_cons])

/-- Claim C5 witness: on a started match whose active player has a
creature in the battle zone, the StartOfTurn step fires no hook. -/
theorem startTurnStep_fires_no_hooks_witness :
    ∃ m2 t, startTurnStep sampleStarted = some (m2, t) ∧
      t.filter isStartOfTurnHook = [] ∧
      (phasesOf t).take 2 = [Phase.START_TURN_STEP, Phase.DRAW_STEP] :=
  startTurnStep_fires_no_hooks sampleStarted Pid.p1 samplePlayer
    [{ cardId := "top", virtualId := 3 }] rfl rfl rfl

/-- Claim C10: playerChooseDeck is a no-op when the match is not in the
CHOOSE_DECK phase, and a no-op for a player whose deck is already set —
so a deck, once chosen, is never replaced by a later call. -/
theorem playerChooseDeck_no_remutation (getCard : String → Card) (gen : Nat)
    (coin : Bool) (m : IMatch) (who : Pid) (deckId : String) :
    (m.phase ≠ Phase.CHOOSE_DECK →
      playerChooseDeck getCard gen coin m who deckId = (m, [])) ∧
    (∀ p, getPlayer m who = some p → p.deck.isSome →
      playerChooseDeck getCard gen coin m who deckId = (m, [])) := by
  constructor
  · intro h
    simp [playerChooseDeck, h]
  · intro p hp hdk
    by_cases hph : m.phase = Phase.CHOOSE_DECK
    · simp [playerChooseDeck, hph, hp, hdk]
    · simp [playerChooseDeck, hph]

theorem beginTurn_some (m : IMatch) (who : Pid) (p : Player) (d : List Card)
    (hturn : m.playerTurn = some who) (hp : getPlayer m who = some p)
    (hd : p.deck = some d) : ∃ r, beginTurn m = some r := by
  cases who <;> simp only [getPlayer] at hp <;> cases d <;>
    simp_all [beginTurn, untapStep, startTurnStep, drawStep, chargeStep,
              setPhaseFx, setPlayer, getPlayer, drawCardsFx, moveCardToFx,
              untapFx, resolveSummoningSicknessFx]

theorem tryStartMatch_noop (coin : Bool) (m : IMatch)
    (h : m.player1 = none ∨ (∃ q, m.player1 = some q ∧ q.deck = none) ∨
         m.player2 = none ∨ (∃ q, m.player2 = some q ∧ q.deck = none)) :
    tryStartMatch coin m = (m, false, []) := by
  rcases h with h1 | ⟨q, hq, hdq⟩ | h2 | ⟨q, hq, hdq⟩
  · simp [tryStartMatch, h1]
  · simp [tryStartMatch, hq, hdq]
  · cases hq1 : m.player1 with
    | none => simp [tryStartMatch, hq1]
    | some q1 =>
      cases hd1 : q1.deck with
      | none => simp [tryStartMatch, hq1, hd1]
      | some dl => simp [tryStartMatch, hq1, hd1, h2]
  · cases hq1 : m.player1 with
    | none => simp [tryStartMatch, hq1]
    | some q1 =>
      cases hd1 : q1.deck with
      | none => simp [tryStartMatch, hq1, hd1]
      | some dl => simp [tryStartMatch, hq1, hd1, hq, hdq]

/-- Claim C3: tryStartMatch returns false and leaves the match unchanged
whenever either player is absent or has no chosen deck; when both
players have confirmed a deck it returns true, sets playerTurn to one
of the two players (by the coin), and runs beginTurn on the prepared
match. -/
theorem tryStartMatch_start_behavior (coin : Bool) (m : IMatch) :
    ((m.player1 = none ∨ (∃ q, m.player1 = some q ∧ q.deck = none) ∨
      m.player2 = none ∨ (∃ q, m.player2 = some q ∧ q.deck = none)) →
      tryStartMatch coin m = (m, false, [])) ∧
    (∀ q1 d1 q2 d2, m.player1 = some q1 → q1.deck = some d1 →
      m.player2 = some q2 → q2.deck = some d2 →
      ∃ mi r, tryStartMatch coin m = (r.1, true, Ev.stateUpdate :: r.2) ∧
        beginTurn mi = some r ∧
        mi = { m with player1 := some (setupPlayer q1),
                      player2 := some (setupPlayer q2),
                      playerTurn := some (if coin then Pid.p1 else Pid.p2) }) := by
  constructor
  · exact fun h => tryStartMatch_noop coin m h
  · intro q1 d1 q2 d2 hq1 hd1 hq2 hd2
    have hsome :
        ∃ r, beginTurn { m with player1 := some (setupPlayer q1),
                                player2 := some (setupPlayer q2),
                                playerTurn := some (if coin then Pid.p1 else Pid.p2) }
          = some r := by
      cases coin
      · exact beginTurn_some _ Pid.p2 (setupPlayer q2) ((d2.drop 5).drop 5)
          rfl rfl (by simp [setupPlayer, hd2])
      · exact beginTurn_some _ Pid.p1 (setupPlayer q1) ((d1.drop 5).drop 5)
          rfl rfl (by simp [setupPlayer, hd1])
    obtain ⟨r, hr⟩ := hsome
    refine ⟨_, r, ?_, hr, rfl⟩
    simp [tryStartMatch, hq1, hd1, hq2, hd2, hr]

/-- Claim C6: every join-time precondition failure of addPlayer (unknown
match id, match no longer IDLE, invite mismatch, both slots taken)
reports an error to the connecting client only and mutates no match. -/
theorem addPlayer_error_untouched (s : ServerState) (client : Nat)
    (user : String) (userDecks : List DeckRecord) (matchId inviteId : Nat)
    (h : getMatch s matchId = none ∨
         ∃ m, getMatch s matchId = some m ∧
           (m.phase ≠ Phase.IDLE ∨ inviteId ≠ m.inviteId ∨
            (m.player1.isSome ∧ m.player2.isSome))) :
    (addPlayer s client user userDecks matchId inviteId).1 = s ∧
    ∃ text, (addPlayer s client user userDecks matchId inviteId).2 =
      [Ev.sendError client text] := by
  rcases h with h | ⟨m, hm, hcond⟩
  · simp [addPlayer, h]
  · by_cases hph : m.phase = Phase.IDLE
    · by_cases hinv : inviteId = m.inviteId
      · rcases hcond with h1 | h2 | ⟨h3, h4⟩
        · exact absurd hph h1
        · exact absurd hinv h2
        · simp [addPlayer, hm, hph, hinv, h3, h4]
      · simp [addPlayer, hm, hph, hinv]
    · simp [addPlayer, hm, hph]

/-- Claim C6 witness: a join attempt against an empty server (unknown
match id) reports the error to the connecting client and changes no
match state. -/
theorem addPlayer_error_untouched_witness :
    (addPlayer { matchList := [], nextId := 0 } 5 "eve" [] 0 0).1 =
      { matchList := [], nextId := 0 } ∧
    ∃ text, (addPlayer { matchList := [], nextId := 0 } 5 "eve" [] 0 0).2 =
      [Ev.sendError 5 text] :=
  addPlayer_error_untouched { matchList := [], nextId := 0 } 5 "eve" [] 0 0
    (Or.inl rfl)

theorem foldl_zoneHook (e : GoEvent) (l : List Fx) (c : GoCard) :
    l.foldl (fun acc f => zoneHookHandler f e acc) c = c := by
  induction l generalizing c with
  | nil => rfl
  | cons a l ih => simpa [zoneHookHandler] using ih c

theorem fireZoneHooks_fix (e : GoEvent) (c : GoCard) :
    fireZoneHooks e c = c :=
  foldl_zoneHook e c.effects c

theorem moveGoCard_eq (c : GoCard) (d : Container) :
    moveGoCard c d = { c with zone := d } := by
  simp [moveGoCard, fireZoneHooks_fix]

theorem afterCombat_keeps_graveyard (f : Fx) (c : GoCard)
    (h : c.zone = Container.GRAVEYARD) :
    (handlerFor f GoEvent.onAfterCombat c).zone = Container.GRAVEYARD := by
  cases f <;>
    simp [handlerFor, suicideHandler, inertHandler, moveGoCard_eq, h]

theorem foldl_afterCombat_graveyard (l : List Fx) (c : GoCard)
    (h : Fx.Suicide ∈ l ∨ c.zone = Container.GRAVEYARD) :
    (l.foldl (fun a f => handlerFor f GoEvent.onAfterCombat a) c).zone =
      Container.GRAVEYARD := by
  induction l generalizing c with
  | nil =>
    rcases h with h | h
    · cases h
    · exact h
  | cons a l ih =>
    rcases h with h | h
    · rcases List.mem_cons.mp h with rfl | hmem
      · exact ih _ (Or.inr (by simp [handlerFor, suicideHandler, moveGoCard_eq]))
      · exact ih _ (Or.inl hmem)
    · exact ih _ (Or.inr (afterCombat_keeps_graveyard a c h))

/-- Claim C9: a card instance whose template binds the Suicide tag, once
moved to the battle zone (the entry hooks change nothing) and handed
the after-combat event, ends in the graveyard. -/
theorem suicide_after_combat_graveyard (c : GoCard)
    (h : Fx.Suicide ∈ c.effects) :
    (fireEvent GoEvent.onAfterCombat (moveGoCard c Container.BATTLEZONE)).zone =
      Container.GRAVEYARD := by
  have h2 : Fx.Suicide ∈ (moveGoCard c Container.BATTLEZONE).effects := by
    simpa [moveGoCard_eq] using h
  unfold fireEvent
  exact foldl_afterCombat_graveyard _ _ (Or.inl h2)

/-- Claim C9 witness: Bone Spider (a Suicide-tagged template of
living_dead.go) dies to its own after-combat effect. -/
theorem suicide_after_combat_graveyard_witness :
    Fx.Suicide ∈ (BoneSpider {}).effects ∧
    (fireEvent GoEvent.onAfterCombat
       (moveGoCard (BoneSpider {}) Container.BATTLEZONE)).zone =
      Container.GRAVEYARD :=
  ⟨by decide, suicide_after_combat_graveyard (BoneSpider {}) (by decide)⟩

/-- Claim C8 counterexample: two runs of the same match fed the
identical input sequence (same created match, same joins with the right
invite, same deck choices) end in different states, because the
starting player is drawn from Math.random, which is not part of the
input sequence. -/
theorem runMatch_depends_on_coin :
    runMatch blankRepo true sampleMatch0 sampleInputs ≠
    runMatch blankRepo false sampleMatch0 sampleInputs := by
  decide

theorem untapEventsOf_untap_map (l : List Card) :
    untapEventsOf (l.map (fun c => Ev.untapFx c.virtualId)) =
      l.map (fun c => Ev.untapFx c.virtualId) := by
  induction l <;> simp_all [untapEventsOf]

theorem untapEventsOf_append (a b : List Ev) :
    untapEventsOf (a ++ b) = untapEventsOf a ++ untapEventsOf b := by
  simp [untapEventsOf]

theorem untapEventsOf_cons_setPhase (ph : Phase) (l : List Ev) :
    untapEventsOf (Ev.setPhase ph :: l) = untapEventsOf l := rfl

theorem untapEventsOf_cons_stateUpdate (l : List Ev) :
    untapEventsOf (Ev.stateUpdate :: l) = untapEventsOf l := rfl

theorem untapEventsOf_cons_draw (v : Nat) (l : List Ev) :
    untapEventsOf (Ev.drawFx v :: l) = untapEventsOf l := rfl

theorem untapEventsOf_cons_move (v : Nat) (d : Container) (l : List Ev) :
    untapEventsOf (Ev.moveFx v d :: l) = untapEventsOf l := rfl

theorem untapEventsOf_nil : untapEventsOf [] = [] := rfl

/-- Claim C8 (amended): two runs of one match that receive identical
input sequences and identical random draws (the starting-player coin)
produce identical states; and the untap effects of the Untap step fire
in zone insertion order (battle zone first, then mana zone, each in
list order). -/
theorem runMatch_replay_amended (g1 g2 : String → Card)
    (coin1 coin2 : Bool) (s1 s2 : IMatch) (i1 i2 : List Inp)
    (hg : g1 = g2) (hc : coin1 = coin2) (hs : s1 = s2) (hi : i1 = i2) :
    runMatch g1 coin1 s1 i1 = runMatch g2 coin2 s2 i2 ∧
    (∀ (m m2 : IMatch) (who : Pid) (p : Player) (t : List Ev),
       m.playerTurn = some who → getPlayer m who = some p →
       untapStep m = some (m2, t) →
       untapEventsOf t =
         p.battlezone.map (fun c => Ev.untapFx c.virtualId) ++
         p.manazone.map (fun c => Ev.untapFx c.virtualId)) := by
  subst hg hc hs hi
  refine ⟨rfl, ?_⟩
  intro m m2 who p t hturn hp hstep
  cases who <;> simp only [getPlayer] at hp <;>
    cases hdk : p.deck with
    | none =>
      exfalso
      simp_all [untapStep, startTurnStep, drawStep, setPhaseFx, setPlayer,
                getPlayer]
    | some d =>
      cases d <;>
        (simp_all [untapStep, startTurnStep, drawStep, chargeStep, setPhaseFx,
                   setPlayer, getPlayer, drawCardsFx, moveCardToFx];
         obtain ⟨hm2, ht⟩ := hstep;
         subst ht;
         simp [untapEventsOf_append, untapEventsOf_cons_setPhase,
               untapEventsOf_cons_stateUpdate, untapEventsOf_cons_draw,
               untapEventsOf_cons_move, untapEventsOf_nil,
               untapEventsOf_untap_map])

/-- Claim C8 witness for the amended statement: the replay equality and
ordering guarantee instantiated on the concrete sample run. -/
theorem runMatch_replay_amended_witness :
    runMatch blankRepo true sampleMatch0 sampleInputs =
      runMatch blankRepo true sampleMatch0 sampleInputs ∧
    (∀ (m m2 : IMatch) (who : Pid) (p : Player) (t : List Ev),
       m.playerTurn = some who → getPlayer m who = some p →
       untapStep m = some (m2, t) →
       untapEventsOf t =
         p.battlezone.map (fun c => Ev.untapFx c.virtualId) ++
         p.manazone.map (fun c => Ev.untapFx c.virtualId)) :=
  runMatch_replay_amended blankRepo blankRepo true true sampleMatch0
    sampleMatch0 sampleInputs sampleInputs rfl rfl rfl rfl

theorem beginTurn_post (m : IMatch) (who : Pid) (p : Player) (d : List Card)
    (hturn : m.playerTurn = some who) (hp : getPlayer m who = some p)
    (hd : p.deck = some d) (hp2 : m.player2 ≠ none) :
    ∃ m2 t, beginTurn m = some (m2, t) ∧
      (m2.phase = Phase.DRAW_STEP ∨ m2.phase = Phase.CHARGE_STEP) ∧
      m2.player2 ≠ none := by
  cases who <;> simp only [getPlayer] at hp <;> cases d <;>
    simp_all [beginTurn, untapStep, startTurnStep, drawStep, chargeStep,
              setPhaseFx, setPlayer, getPlayer, drawCardsFx, moveCardToFx,
              untapFx, resolveSummoningSicknessFx]

theorem tryStartMatch_frame (coin : Bool) (m : IMatch)
    (hp2 : m.player2 ≠ none) (hph : m.phase ≠ Phase.IDLE) :
    (tryStartMatch coin m).1.player2 ≠ none ∧
    (tryStartMatch coin m).1.phase ≠ Phase.IDLE := by
  cases hq1 : m.player1 with
  | none => simp [tryStartMatch, hq1, hp2, hph]
  | some q1 =>
    cases hd1 : q1.deck with
    | none => simp [tryStartMatch, hq1, hd1, hp2, hph]
    | some dl1 =>
      cases hq2 : m.player2 with
      | none => exact absurd hq2 hp2
      | some q2 =>
        cases hd2 : q2.deck with
        | none => simp [tryStartMatch, hq1, hd1, hq2, hd2, hp2, hph]
        | some dl2 =>
          have hpost :
              ∃ m2 t, beginTurn
                { m with player1 := some (setupPlayer q1),
                         player2 := some (setupPlayer q2),
                         playerTurn := some (if coin then Pid.p1 else Pid.p2) }
                = some (m2, t) ∧
                (m2.phase = Phase.DRAW_STEP ∨ m2.phase = Phase.CHARGE_STEP) ∧
                m2.player2 ≠ none := by
            cases coin
            · exact beginTurn_post _ Pid.p2 (setupPlayer q2) (dl2.drop 10)
                rfl rfl (by simp [setupPlayer, hd2]) (by simp)
            · exact beginTurn_post _ Pid.p1 (setupPlayer q1) (dl1.drop 10)
                rfl rfl (by simp [setupPlayer, hd1]) (by simp)
          obtain ⟨m2, t, hb, hphase, hsome⟩ := hpost
          have : tryStartMatch coin m = (m2, true, Ev.stateUpdate :: t) := by
            simp [tryStartMatch, hq1, hd1, hq2, hd2, hb]
          rw [this]
          refine ⟨hsome, ?_⟩
          rcases hphase with h | h <;> simp [h]

theorem reachable_player2_iff_idle (m : IMatch) (h : Reachable m) :
    m.player2 = none ↔ m.phase = Phase.IDLE := by
  induction h with
  | created idv inv nm desc => simp
  | step m a hm ih =>
    cases a with
    | add cl u uds inv =>
      simp only [applyAction, addPlayerM]
      by_cases h1 : m.phase = Phase.IDLE
      · by_cases h2 : inv = m.inviteId
        · by_cases h3 : (m.player1.isSome && m.player2.isSome) = true
          · simp [h1, h2, h3, ih]
          · cases hq : m.player1 with
            | none => simp [h1, h2, h3, hq, ih]
            | some q1 =>
              have h4 : m.player2 = none := by
                cases hx : m.player2 with
                | none => rfl
                | some q2 => rw [hq, hx] at h3; simp at h3
              simp [h1, h2, h3, hq, h4]
        · simp [h1, h2, ih]
      · simp [h1, ih]
    | choose g gen coin who deckId =>
      simp only [applyAction]
      by_cases h1 : m.phase = Phase.CHOOSE_DECK
      · have hp2 : m.player2 ≠ none := by
          intro hx
          have hI := ih.mp hx
          simp [hI] at h1
        cases hgp : getPlayer m who with
        | none => simp [playerChooseDeck, h1, hgp, ih]
        | some player =>
          by_cases hds : player.deck.isSome = true
          · simp [playerChooseDeck, h1, hgp, hds, ih]
          · cases hfind : player.decks.find? (fun x => x.uid = deckId) with
            | none => simp [playerChooseDeck, h1, hgp, hds, hfind, ih]
            | some drec =>
              have hfr := tryStartMatch_frame coin (setPlayer m who { player with deck := some (instantiateDeck gen (createDeck g drec.cards)) }) (by cases who <;> simp [setPlayer, hp2]) (by cases who <;> simp [setPlayer, h1])
              have heval : playerChooseDeck g gen coin m who deckId = ((tryStartMatch coin (setPlayer m who { player with deck := some (instantiateDeck gen (createDeck g drec.cards)) })).1, (tryStartMatch coin (setPlayer m who { player with deck := some (instantiateDeck gen (createDeck g drec.cards)) })).2.2) := by
                simp [playerChooseDeck, h1, hgp, hds, hfind]
              rw [heval]
              exact iff_of_false hfr.1 hfr.2
      · simp [playerChooseDeck, h1, ih]
    | tryStart coin =>
      show ((tryStartMatch coin m).1.player2 = none ↔
            (tryStartMatch coin m).1.phase = Phase.IDLE)
      cases hq2 : m.player2 with
      | none =>
        rw [tryStartMatch_noop coin m (Or.inr (Or.inr (Or.inl hq2)))]
        simpa using ih
      | some q2 =>
        cases hq1 : m.player1 with
        | none =>
          rw [tryStartMatch_noop coin m (Or.inl hq1)]
          simpa using ih
        | some q1 =>
          cases hd1 : q1.deck with
          | none =>
            rw [tryStartMatch_noop coin m (Or.inr (Or.inl ⟨q1, hq1, hd1⟩))]
            simpa using ih
          | some dl1 =>
            cases hd2 : q2.deck with
            | none =>
              rw [tryStartMatch_noop coin m
                    (Or.inr (Or.inr (Or.inr ⟨q2, hq2, hd2⟩)))]
              simpa using ih
            | some dl2 =>
              have hph : m.phase ≠ Phase.IDLE := by
                intro hI
                have := ih.mpr hI
                simp [hq2] at this
              have hfr := tryStartMatch_frame coin m (by simp [hq2]) hph
              exact iff_of_false hfr.1 hfr.2

/-- Claim C7: in every reachable match state, the phase is the pre-game
phase (IDLE) exactly while the second player slot is empty; the only
operation that moves the phase out of IDLE is a successful add of the
second player, and it moves it to CHOOSE_DECK. -/
theorem match_pregame_invariant (m : IMatch) (h : Reachable m) :
    (m.player2 = none ↔ m.phase = Phase.IDLE) ∧
    (∀ a, m.phase = Phase.IDLE → (applyAction a m).1.phase ≠ Phase.IDLE →
      (applyAction a m).1.phase = Phase.CHOOSE_DECK ∧ m.player2 = none ∧
      (applyAction a m).1.player2 ≠ none ∧
      ∃ cl u uds inv, a = MatchAction.add cl u uds inv) ∧
    (∀ cl u uds inv, m.player2 = none →
      (applyAction (MatchAction.add cl u uds inv) m).1.player2 ≠ none →
      (applyAction (MatchAction.add cl u uds inv) m).1.phase =
        Phase.CHOOSE_DECK) := by
  have hInv := reachable_player2_iff_idle m h
  refine ⟨hInv, ?_, ?_⟩
  · intro a hI hne
    cases a with
    | add cl u uds inv =>
      simp only [applyAction, addPlayerM] at hne ⊢
      by_cases h2 : inv = m.inviteId
      · by_cases h3 : (m.player1.isSome && m.player2.isSome) = true
        · simp [hI, h2, h3] at hne
        · cases hq : m.player1 with
          | none => simp [hI, h2, h3, hq] at hne
          | some q1 =>
            have hq2 : m.player2 = none := by
              rcases hx : m.player2 with _ | q2
              · rfl
              · rw [hq, hx] at h3
                simp at h3
            refine ⟨by simp [hI, h2, h3, hq, hq2], hq2,
                    by simp [hI, h2, h3, hq, hq2], cl, u, uds, inv, rfl⟩
      · simp [hI, h2] at hne
    | choose g gen coin who deckId =>
      have hnc : m.phase ≠ Phase.CHOOSE_DECK := by simp [hI]
      simp only [applyAction] at hne
      simp [playerChooseDeck, hnc, hI] at hne
    | tryStart coin =>
      have hq2 : m.player2 = none := hInv.mpr hI
      have := tryStartMatch_noop coin m (Or.inr (Or.inr (Or.inl hq2)))
      simp only [applyAction] at hne
      rw [this] at hne
      exact absurd hI hne
  · intro cl u uds inv hq2 hsome
    simp only [applyAction, addPlayerM] at hsome ⊢
    by_cases h1 : m.phase = Phase.IDLE
    · by_cases h2 : inv = m.inviteId
      · have h3 : (m.player1.isSome && m.player2.isSome) = false := by
          simp [hq2]
        cases hq : m.player1 with
        | none => simp [h1, h2, h3, hq, hq2] at hsome
        | some q1 => simp [h1, h2, h3, hq, hq2]
      · simp [h1, h2, hq2] at hsome
    · simp [h1, hq2] at hsome

/-- Claim C7 witness: the invariant instantiated at a freshly created
match. -/
theorem match_pregame_invariant_witness :
    (sampleMatch0.player2 = none ↔ sampleMatch0.phase = Phase.IDLE) ∧
    (∀ a, sampleMatch0.phase = Phase.IDLE →
      (applyAction a sampleMatch0).1.phase ≠ Phase.IDLE →
      (applyAction a sampleMatch0).1.phase = Phase.CHOOSE_DECK ∧
      sampleMatch0.player2 = none ∧
      (applyAction a sampleMatch0).1.player2 ≠ none ∧
      ∃ cl u uds inv, a = MatchAction.add cl u uds inv) ∧
    (∀ cl u uds inv, sampleMatch0.player2 = none →
      (applyAction (MatchAction.add cl u uds inv) sampleMatch0).1.player2 ≠ none →
      (applyAction (MatchAction.add cl u uds inv) sampleMatch0).1.phase =
        Phase.CHOOSE_DECK) :=
  match_pregame_invariant sampleMatch0 (Reachable.created 0 1 "n" "d")

end DuelMasters
